import Mathlib

set_option linter.unusedVariables false

/-!
Shallow embedding of the Ollama orchestrator's autoscaling core
(`scaling.go` plus the routing/registry half in the second source file).

Go `float64` values are modelled as exact rationals, Go `int` as `Int`
(with Go's truncating division written `Int.tdiv` and the Go `int(float)`
conversion written `goTrunc`).  The global mutable state of the package
(`currentWorkers`, `requestCounts`, `nextPort`, `activeModels`) is one
record `GlobalState`; the external container runtime (`docker run` /
`docker stop`) is an oracle `ContainerRuntime` of success outcomes, and
calls to it are recorded in a ghost event log so that theorems can speak
about how many start/stop attempts a code path issues.
-/

/-- Go conversion `int(x)` from a float: truncation toward zero
(`Int.tdiv` of the numerator by the denominator). -/
def goTrunc (q : ℚ) : ℤ :=
  Int.tdiv q.num q.den

/-- Struct `ScalingMetrics` from scaling.go (floats modelled as rationals). -/
structure ScalingMetrics where
  GPUUtilization : ℚ
  VRAMUsed : ℚ
  Requests : ℤ
deriving DecidableEq

/-- The VRAM cap computed inside `calculateDesiredWorkers`:
`int((metrics.VRAMUsed * 0.9) / 4000)`. -/
def maxByVRAM (metrics : ScalingMetrics) : ℤ :=
  goTrunc (metrics.VRAMUsed * (9 / 10) / 4000)

/-- Function `calculateDesiredWorkers` from scaling.go. -/
def calculateDesiredWorkers (model : String) (requests : ℤ)
    (metrics : ScalingMetrics) : ℤ :=
  let base : ℤ := 1
  let base := if metrics.GPUUtilization > 70 then base + 1 else base
  let base := if requests > 10 then base + Int.tdiv requests 5 else base
  if base > maxByVRAM metrics then maxByVRAM metrics else base

/-! ## The worker registry (`activeModels : sync.Map`, model → port)

A `sync.Map` holds at most one value per key; it is embedded as an
association list whose `store` overwrites an existing entry in place and
whose `delete` removes the key.  `SyncMap.load`, `getModelPorts`,
`getActiveModels` and `countActiveModels` mirror `Load`, the `Range`
loops in `getModelPorts` / `getActiveModels`, and `countActiveModels`. -/

/-- A `sync.Map` with string keys and values, as an association list. -/
abbrev SyncMap := List (String × String)

/-- Operation `activeModels.Load(k)`. -/
def SyncMap.load (m : SyncMap) (k : String) : Option String :=
  match m.find? (fun kv => kv.1 == k) with
  | some kv => some kv.2
  | none => none

/-- Operation `activeModels.Store(k, v)`: overwrite the entry for `k` if present,
append it otherwise. -/
def SyncMap.store (m : SyncMap) (k v : String) : SyncMap :=
  if m.any (fun kv => kv.1 == k) then
    m.map (fun kv => if kv.1 == k then (k, v) else kv)
  else
    m ++ [(k, v)]

/-- Operation `activeModels.Delete(k)`. -/
def SyncMap.delete (m : SyncMap) (k : String) : SyncMap :=
  m.filter (fun kv => kv.1 != k)

/-- Function `getModelPorts(model)` from scaling.go: collect the values of every
entry whose key equals `model`. -/
def getModelPorts (m : SyncMap) (model : String) : List String :=
  (m.filter (fun kv => kv.1 == model)).map (fun kv => kv.2)

/-- Function `getActiveModels()`: the keys, in `Range` order. -/
def getActiveModels (m : SyncMap) : List String :=
  m.map (fun kv => kv.1)

/-- Function `countActiveModels()` from the routing file. -/
def countActiveModels (m : SyncMap) : Nat :=
  m.length

/-- The keys of the map are pairwise distinct.  This is the defining
property of a `sync.Map` (one value per key), stated on the embedding. -/
def NodupKeys (m : SyncMap) : Prop :=
  (m.map (fun kv => kv.1)).Nodup

instance (m : SyncMap) : Decidable (NodupKeys m) := by
  unfold NodupKeys; infer_instance

/-! ## Global mutable state and the container runtime -/

/-- Ghost log entries for the calls the core makes to the external
container runtime (`docker run` / `docker stop`) and for each drained
demand value a scaling cycle feeds into its decision. -/
inductive Event where
  | startCall : String → String → Event
  | stopCall : String → String → Event
  | decision : String → ℤ → Event
deriving DecidableEq

/-- The external container runtime as an oracle of outcomes: whether a
given `docker run` / `docker stop` for a model+port reports success. -/
structure ContainerRuntime where
  startOk : String → String → Bool
  stopOk : String → String → Bool

/-- The package's global mutable state: `currentWorkers`, `requestCounts`
(Go maps, absent keys read as 0), `nextPort`, and `activeModels`; plus the
ghost event log. -/
structure GlobalState where
  currentWorkers : String → ℤ
  requestCounts : String → ℤ
  nextPort : ℤ
  activeModels : SyncMap
  events : List Event

/-- Process start: empty maps, `nextPort = 11434`. -/
def initialState : GlobalState :=
  { currentWorkers := fun _ => 0
    requestCounts := fun _ => 0
    nextPort := 11434
    activeModels := []
    events := [] }

/-- Constant `basePort` from the routing file. -/
def basePort : ℤ := 11434

/-- Function `TrackRequest(model)` from scaling.go. -/
def TrackRequest (model : String) (st : GlobalState) : GlobalState :=
  { st with requestCounts :=
      fun m => if m = model then st.requestCounts model + 1 else st.requestCounts m }

/-- Function `findAvailablePort()` from scaling.go: hand out `nextPort` as a string
and increment the counter. -/
def findAvailablePort (st : GlobalState) : String × GlobalState :=
  (toString st.nextPort, { st with nextPort := st.nextPort + 1 })

/-- Function `startOllamaContainer(model, port)` from the routing file: run the
container (logged as a `startCall`); on success store `model → port` in
`activeModels` and report success, otherwise return the error with no
registry change. -/
def startOllamaContainer (rt : ContainerRuntime) (model port : String)
    (st : GlobalState) : Bool × GlobalState :=
  let st1 := { st with events := st.events ++ [Event.startCall model port] }
  if rt.startOk model port then
    (true, { st1 with activeModels := st1.activeModels.store model port })
  else
    (false, st1)

/-- Function `stopOllamaContainer(model, port)` from scaling.go: delete `model`
from `activeModels` unconditionally, then run `docker stop` (logged as a
`stopCall`) and return its outcome. -/
def stopOllamaContainer (rt : ContainerRuntime) (model port : String)
    (st : GlobalState) : Bool × GlobalState :=
  (rt.stopOk model port,
   { st with
       activeModels := st.activeModels.delete model
       events := st.events ++ [Event.stopCall model port] })

/-- The loop body of `scaleUpModel`: `count` iterations; each allocates a
port and attempts a start; a failure is logged and skipped (`continue`),
a success increments `currentWorkers[model]`. -/
def scaleUpLoop (rt : ContainerRuntime) (model : String) :
    Nat → GlobalState → GlobalState
  | 0, st => st
  | n + 1, st =>
    let pst := findAvailablePort st
    let res := startOllamaContainer rt model pst.1 pst.2
    if res.1 then
      scaleUpLoop rt model n
        { res.2 with currentWorkers :=
            fun m => if m = model then res.2.currentWorkers model + 1
                     else res.2.currentWorkers m }
    else
      scaleUpLoop rt model n res.2

/-- Function `scaleUpModel(model, count)` from scaling.go. -/
def scaleUpModel (rt : ContainerRuntime) (model : String) (count : ℤ)
    (st : GlobalState) : GlobalState :=
  scaleUpLoop rt model count.toNat st

/-- The loop body of `scaleDownModel`: the guard `i < count && len(ports) > 1`
re-checks the (unchanged) `ports` slice each iteration; the last port is
stopped; a failure is logged and skipped (`continue`), a success
decrements `currentWorkers[model]`. -/
def scaleDownLoop (rt : ContainerRuntime) (model : String)
    (ports : List String) : Nat → GlobalState → GlobalState
  | 0, st => st
  | n + 1, st =>
    if ports.length > 1 then
      let port := ports.getLastD ""
      let res := stopOllamaContainer rt model port st
      if res.1 then
        scaleDownLoop rt model ports n
          { res.2 with currentWorkers :=
              fun m => if m = model then res.2.currentWorkers model - 1
                       else res.2.currentWorkers m }
      else
        scaleDownLoop rt model ports n res.2
    else st

/-- Function `scaleDownModel(model, count)` from scaling.go. -/
def scaleDownModel (rt : ContainerRuntime) (model : String) (count : ℤ)
    (st : GlobalState) : GlobalState :=
  scaleDownLoop rt model (getModelPorts st.activeModels model) count.toNat st

/-- One iteration of the per-model loop in `scaleModelsBasedOnDemand`:
read the drained demand (logged as a ghost `decision` event), compare
desired against current workers, scale, then reset the model's counter. -/
def scaleStep (rt : ContainerRuntime) (metrics : ScalingMetrics)
    (st : GlobalState) (model : String) : GlobalState :=
  let requests := st.requestCounts model
  let workers := st.currentWorkers model
  let desired := calculateDesiredWorkers model requests metrics
  let st1 := { st with events := st.events ++ [Event.decision model requests] }
  let st2 :=
    if desired > workers then scaleUpModel rt model (desired - workers) st1
    else if desired < workers then scaleDownModel rt model (workers - desired) st1
    else st1
  { st2 with requestCounts :=
      fun m => if m = model then 0 else st2.requestCounts m }

/-- Function `scaleModelsBasedOnDemand()` from scaling.go, with the metrics reading
passed in as the snapshot `getSystemMetrics` produced for the cycle.
This is the lock-erased data semantics of a cycle — what the loop body
computes, ignoring that `findAvailablePort` re-acquires `scalingLock`.
It over-approximates the states a cycle can produce, which is the safe
direction for the registry invariants; the lock-faithful semantics is
`scaleModelsBasedOnDemandWithLock` below. -/
def scaleModelsBasedOnDemand (rt : ContainerRuntime) (metrics : ScalingMetrics)
    (st : GlobalState) : GlobalState :=
  (getActiveModels st.activeModels).foldl (scaleStep rt metrics) st

/-! ## The scaling cycle with the `scalingLock` discipline

`scaleModelsBasedOnDemand` acquires `scalingLock` on entry and holds it
for the whole cycle (`defer scalingLock.Unlock()`).  `findAvailablePort`
begins with `scalingLock.Lock()` on the same mutex, and Go's
`sync.Mutex` is not reentrant: a goroutine that locks a mutex it already
holds blocks forever.  The only caller of `findAvailablePort` is
`scaleUpModel`, which is called only from inside a cycle, so every
in-cycle scale-up of at least one worker blocks before its first
container start.  The lock-aware embedding returns `Option GlobalState`:
`none` is the diverging cycle — the goroutine never returns, the lock is
never released, and no state below the block becomes observable. -/

/-- Function `findAvailablePort()` including its `scalingLock.Lock()` call:
from a goroutine that already holds `scalingLock` the call blocks
forever (`none`); from a goroutine that does not, it hands out the port
as `findAvailablePort` does. -/
def findAvailablePortWithLock (lockHeld : Bool) (st : GlobalState) :
    Option (String × GlobalState) :=
  if lockHeld then none
  else some (findAvailablePort st)

/-- The loop body of `scaleUpModel` with the caller's lock context: each
iteration starts with a `findAvailablePort()` call, so with `scalingLock`
held the first iteration already blocks forever. -/
def scaleUpLoopWithLock (rt : ContainerRuntime) (model : String)
    (lockHeld : Bool) : Nat → GlobalState → Option GlobalState
  | 0, st => some st
  | n + 1, st =>
    match findAvailablePortWithLock lockHeld st with
    | none => none
    | some pst =>
      let res := startOllamaContainer rt model pst.1 pst.2
      if res.1 then
        scaleUpLoopWithLock rt model lockHeld n
          { res.2 with currentWorkers :=
              fun m => if m = model then res.2.currentWorkers model + 1
                       else res.2.currentWorkers m }
      else
        scaleUpLoopWithLock rt model lockHeld n res.2

/-- Function `scaleUpModel(model, count)` with the caller's lock context. -/
def scaleUpModelWithLock (rt : ContainerRuntime) (model : String)
    (lockHeld : Bool) (count : ℤ) (st : GlobalState) : Option GlobalState :=
  scaleUpLoopWithLock rt model lockHeld count.toNat st

/-- One iteration of the per-model cycle loop under `scalingLock` (the
cycle holds the lock, so scale-up runs with `lockHeld = true`); a `none`
accumulator is a cycle already blocked in an earlier iteration.  The
scale-down path takes no nested lock and is the total `scaleDownModel`. -/
def scaleStepWithLock (rt : ContainerRuntime) (metrics : ScalingMetrics)
    (acc : Option GlobalState) (model : String) : Option GlobalState :=
  match acc with
  | none => none
  | some st =>
    let requests := st.requestCounts model
    let workers := st.currentWorkers model
    let desired := calculateDesiredWorkers model requests metrics
    let st1 := { st with events := st.events ++ [Event.decision model requests] }
    let ost2 :=
      if desired > workers then
        scaleUpModelWithLock rt model true (desired - workers) st1
      else if desired < workers then
        some (scaleDownModel rt model (workers - desired) st1)
      else some st1
    match ost2 with
    | none => none
    | some st2 =>
      some { st2 with requestCounts :=
          fun m => if m = model then 0 else st2.requestCounts m }

/-- Function `scaleModelsBasedOnDemand()` modelling the `scalingLock`
discipline: `some` is a completed cycle, `none` a cycle that blocked
forever inside `scaleUpModel` (and therefore never released the lock). -/
def scaleModelsBasedOnDemandWithLock (rt : ContainerRuntime)
    (metrics : ScalingMetrics) (st : GlobalState) : Option GlobalState :=
  (getActiveModels st.activeModels).foldl (scaleStepWithLock rt metrics) (some st)

/-- Function `ensureModelRunning(model)` from the routing file: return the
registered port if the model is live, otherwise compute a port as
`basePort + countActiveModels()`, start a container and return the port
on success or the error (`none`) on failure. -/
def ensureModelRunning (rt : ContainerRuntime) (model : String)
    (st : GlobalState) : Option String × GlobalState :=
  match st.activeModels.load model with
  | some port => (some port, st)
  | none =>
    let port := toString (basePort + (countActiveModels st.activeModels : ℤ))
    let res := startOllamaContainer rt model port st
    if res.1 then (some port, res.2) else (none, res.2)

/-- A runtime for which every start and stop succeeds. -/
def rtAllOk : ContainerRuntime :=
  { startOk := fun _ _ => true, stopOk := fun _ _ => true }

/-- A runtime for which every start and stop fails. -/
def rtAllFail : ContainerRuntime :=
  { startOk := fun _ _ => false, stopOk := fun _ _ => false }

/-! ## The metrics probe (`getSystemMetrics`)

`getSystemMetrics` shells out to `nvidia-smi`; the probe outcome is
`none` for a command error and `some out` for success with output `out`.
The body then splits the trimmed output on a comma and indexes
`parts[0]` and `parts[1]` without a bounds check; the embedding returns
`none` exactly when that Go slice index would panic.  `ParseFloat`
discards its error, so it is modelled as an arbitrary total function. -/

/-- Whitespace predicate used by Go's `strings.TrimSpace`. -/
def isSpaceChar (c : Char) : Bool :=
  c == ' ' || c == '\t' || c == '\n' || c == '\r'

/-- Go `strings.TrimSpace` on the character list of a string. -/
def trimChars (s : List Char) : List Char :=
  ((s.dropWhile isSpaceChar).reverse.dropWhile isSpaceChar).reverse

/-- Go `strings.Split(s, ",")`: always returns at least one group. -/
def splitComma : List Char → List (List Char)
  | [] => [[]]
  | c :: rest =>
    match splitComma rest with
    | [] => [[]]
    | g :: gs => if c == ',' then [] :: g :: gs else (c :: g) :: gs

/-- Function `getSystemMetrics()` from scaling.go.  `probe = none` is a command
error (zero metrics are returned); on `some out` the code indexes
`parts[1]` unchecked, so a comma-free output makes the result `none`,
the embedding's marker for the Go index-out-of-range panic. -/
def getSystemMetrics (parseFloat : String → ℚ) (probe : Option String) :
    Option ScalingMetrics :=
  match probe with
  | none => some { GPUUtilization := 0, VRAMUsed := 0, Requests := 0 }
  | some out =>
    let parts := splitComma (trimChars out.data)
    match parts.get? 0, parts.get? 1 with
    | some p0, some p1 =>
      some { GPUUtilization := parseFloat (String.mk (trimChars p0))
             VRAMUsed := parseFloat (String.mk (trimChars p1))
             Requests := 0 }
    | _, _ => none

/-! ## Interleavings of concurrent `route` calls

`generateHandler`'s provisioning path (`ensureModelRunning` plus the
container start inside `startOllamaContainer`) takes no lock.  The
check-then-provision sequence is therefore split into its atomic steps:
the `activeModels.Load` check (together with the port computation that
immediately follows it) and the container start + `Store`.  Two
in-flight requests are a pair of program counters over the shared
`GlobalState`; a schedule says which request advances at each moment.
Merging the load with the port computation, and the start with the
store, only makes the embedded code more atomic than the Go code, so
any interference exhibited on this machine exists in the source. -/

/-- Program counter of one in-flight `route(model)` call. -/
inductive RoutePC where
  | load : RoutePC
  | callStart : String → RoutePC
  | done : Option String → RoutePC
deriving DecidableEq

/-- One atomic step of an in-flight `route(model)` call. -/
def routeStep (rt : ContainerRuntime) (model : String)
    (pc : RoutePC) (st : GlobalState) : RoutePC × GlobalState :=
  match pc with
  | RoutePC.load =>
    match st.activeModels.load model with
    | some port => (RoutePC.done (some port), st)
    | none =>
      (RoutePC.callStart
        (toString (basePort + (countActiveModels st.activeModels : ℤ))), st)
  | RoutePC.callStart port =>
    let res := startOllamaContainer rt model port st
    (RoutePC.done (if res.1 then some port else none), res.2)
  | RoutePC.done r => (RoutePC.done r, st)

/-- Two in-flight `route` calls sharing the global state. -/
structure RoutePair where
  m1 : String
  pc1 : RoutePC
  m2 : String
  pc2 : RoutePC
  st : GlobalState

/-- Advance request 1 (`true`) or request 2 (`false`) by one step. -/
def pairStep (rt : ContainerRuntime) (c : RoutePair) (which : Bool) : RoutePair :=
  if which then
    let r := routeStep rt c.m1 c.pc1 c.st
    { c with pc1 := r.1, st := r.2 }
  else
    let r := routeStep rt c.m2 c.pc2 c.st
    { c with pc2 := r.1, st := r.2 }

/-- Run a schedule of interleaved steps. -/
def runSched (rt : ContainerRuntime) (sched : List Bool) (c : RoutePair) :
    RoutePair :=
  sched.foldl (pairStep rt) c

/-- Number of container start calls issued for `model` in a log. -/
def countStartCalls (evs : List Event) (model : String) : Nat :=
  (evs.filter (fun e =>
    match e with
    | Event.startCall m _ => m == model
    | _ => false)).length

/-! ## Concrete states and race configurations used by the theorems -/

/-- A state with one registered worker for model "a" on port 11434. -/
def st1worker : GlobalState :=
  { currentWorkers := fun m => if m = "a" then 1 else 0
    requestCounts := fun _ => 0
    nextPort := 11435
    activeModels := [("a", "11434")]
    events := [] }

/-- A state with one registered worker for "a" and 3 pending requests. -/
def stDemand : GlobalState :=
  { currentWorkers := fun m => if m = "a" then 1 else 0
    requestCounts := fun m => if m = "a" then 3 else 0
    nextPort := 11435
    activeModels := [("a", "11434")]
    events := [] }

/-- Two concurrent `route` calls for the distinct, unregistered models
"x" and "y", each between its emptiness check and its store. -/
def routeRaceXY : RoutePair :=
  { m1 := "x", pc1 := RoutePC.load, m2 := "y", pc2 := RoutePC.load
    st := initialState }

/-- Two concurrent `route` calls for the same unregistered model "x". -/
def routeRaceXX : RoutePair :=
  { m1 := "x", pc1 := RoutePC.load, m2 := "x", pc2 := RoutePC.load
    st := initialState }

/-- The states reachable from process start through the program's entry
points: `TrackRequest`, the routing path, and scaling cycles. -/
inductive Reachable : GlobalState → Prop where
  | init : Reachable initialState
  | track (model : String) {st : GlobalState} :
      Reachable st → Reachable (TrackRequest model st)
  | route (rt : ContainerRuntime) (model : String) {st : GlobalState} :
      Reachable st → Reachable (ensureModelRunning rt model st).2
  | cycle (rt : ContainerRuntime) (metrics : ScalingMetrics) {st : GlobalState} :
      Reachable st → Reachable (scaleModelsBasedOnDemand rt metrics st)

/-! ## Claim theorems -/

/-- For a nonnegative rational, Go truncation agrees with the floor. -/
theorem goTrunc_eq_floor (q : ℚ) (h : 0 ≤ q) : goTrunc q = ⌊q⌋ := by
  unfold goTrunc
  rw [Int.tdiv_eq_ediv (Rat.num_nonneg.mpr h) (by exact_mod_cast Nat.zero_le q.den)]
  exact Rat.floor_def.symm

/-- C5: for nonnegative inputs, `calculateDesiredWorkers` equals
`min base maxByVRAM` with `base = 1`, plus 1 when the GPU utilization
exceeds 70, plus `floor(requests / 5)` when `requests > 10`, and
`maxByVRAM = floor(vramUsedMB * 0.9 / 4000)`. -/
theorem calculateDesiredWorkers_formula (model : String) (requests : ℤ)
    (metrics : ScalingMetrics) (hr : 0 ≤ requests)
    (hg : 0 ≤ metrics.GPUUtilization) (hv : 0 ≤ metrics.VRAMUsed) :
    calculateDesiredWorkers model requests metrics =
      min (1 + (if metrics.GPUUtilization > 70 then 1 else 0)
             + (if requests > 10 then requests / 5 else 0))
          ⌊metrics.VRAMUsed * (9 / 10) / 4000⌋ := by
  have hM : maxByVRAM metrics = ⌊metrics.VRAMUsed * (9 / 10) / 4000⌋ := by
    unfold maxByVRAM
    exact goTrunc_eq_floor _ (by positivity)
  have hdiv : Int.tdiv requests 5 = requests / 5 :=
    Int.tdiv_eq_ediv hr (by norm_num)
  simp only [calculateDesiredWorkers]
  rw [hM, hdiv]
  generalize ⌊metrics.VRAMUsed * (9 / 10) / 4000⌋ = M
  generalize (requests / 5 : ℤ) = r5
  simp only [min_def]
  split_ifs <;> omega

/-- C5 witness: `requests = 11`, `gpu = 0`, `vram = 20000` gives
`min (1 + 0 + 2) 4 = 3`. -/
theorem calculateDesiredWorkers_formula_witness :
    (0 : ℤ) ≤ 11 ∧ (0 : ℚ) ≤ 20000 ∧
    calculateDesiredWorkers "llama" 11 ⟨0, 20000, 0⟩ = 3 := by
  refine ⟨by norm_num, by norm_num, ?_⟩
  rw [calculateDesiredWorkers_formula "llama" 11 ⟨0, 20000, 0⟩ (by norm_num)
    (le_refl 0) (by norm_num)]
  norm_num

/-- C6 counterexample: with `vramUsedMB = -10000` (a malformed probe
reading parses to a negative float), `maxByVRAM = -2 ≤ 0` but
`calculateDesiredWorkers` returns `-2`, not `0`. -/
theorem desired_nonzero_with_negative_vram_cex :
    maxByVRAM ⟨0, -10000, 0⟩ ≤ 0 ∧
    calculateDesiredWorkers "llama" 0 ⟨0, -10000, 0⟩ = -2 := by
  have harg : (ScalingMetrics.mk 0 (-10000) 0).VRAMUsed * (9 / 10) / 4000
      = (-9 / 4 : ℚ) := by norm_num
  have hM : maxByVRAM ⟨0, -10000, 0⟩ = -2 := by
    unfold maxByVRAM
    rw [harg]
    unfold goTrunc
    rw [show ((-9 / 4 : ℚ)).num = -9 by norm_num,
        show ((-9 / 4 : ℚ)).den = 4 by norm_num]
    decide
  refine ⟨by rw [hM]; norm_num, ?_⟩
  simp only [calculateDesiredWorkers, hM]
  norm_num

/-- C6 amended: whenever `maxByVRAM metrics ≤ 0`, the function returns
`maxByVRAM metrics` itself (so `0` exactly when `maxByVRAM = 0`, and a
negative count when `maxByVRAM < 0`). -/
theorem desired_eq_maxByVRAM_when_nonpos (model : String) (requests : ℤ)
    (metrics : ScalingMetrics) (h : maxByVRAM metrics ≤ 0) :
    calculateDesiredWorkers model requests metrics = maxByVRAM metrics := by
  simp only [calculateDesiredWorkers]
  generalize hMg : maxByVRAM metrics = M at *
  split_ifs <;>
    first
      | rfl
      | (exfalso
         have ht : (0 : ℤ) ≤ Int.tdiv requests 5 :=
           Int.tdiv_nonneg (by omega) (by norm_num)
         omega)

/-- C6 amended witness: at the zero metrics reading, `maxByVRAM = 0` and
the desired count is `0 = maxByVRAM`. -/
theorem desired_eq_maxByVRAM_when_nonpos_witness :
    maxByVRAM ⟨0, 0, 0⟩ ≤ 0 ∧
    calculateDesiredWorkers "llama" 0 ⟨0, 0, 0⟩ = maxByVRAM ⟨0, 0, 0⟩ := by
  have h0 : maxByVRAM ⟨0, 0, 0⟩ ≤ 0 := by
    unfold maxByVRAM
    rw [show (ScalingMetrics.mk 0 0 0).VRAMUsed * (9 / 10) / 4000 = (0 : ℚ)
      by norm_num]
    decide
  exact ⟨h0, desired_eq_maxByVRAM_when_nonpos "llama" 0 ⟨0, 0, 0⟩ h0⟩

/-- Events appended by `startOllamaContainer`: exactly one `startCall`,
whether or not the runtime reports success. -/
theorem startOllama_events (rt : ContainerRuntime) (model port : String)
    (st : GlobalState) :
    (startOllamaContainer rt model port st).2.events
      = st.events ++ [Event.startCall model port] := by
  by_cases h : rt.startOk model port <;> simp [startOllamaContainer, h]

/-- C7: calling `stopOllamaContainer` on a registered worker with a
failing runtime reports the error, yet the model's registration is gone
from `activeModels` — the registry is mutated on the error path. -/
theorem stop_failure_unregisters_model :
    (stopOllamaContainer rtAllFail "a" "11434" st1worker).1 = false ∧
    st1worker.activeModels.load "a" = some "11434" ∧
    (stopOllamaContainer rtAllFail "a" "11434" st1worker).2.activeModels.load "a"
      = none := by decide

/-- A scale-up loop entered with `scalingLock` held blocks in its first
iteration's `findAvailablePort()` call, before any container start. -/
theorem scaleUpLoopWithLock_succ (rt : ContainerRuntime) (model : String)
    (n : Nat) (st : GlobalState) :
    scaleUpLoopWithLock rt model true (n + 1) st = none := rfl

/-- C8: a scaling cycle holds `scalingLock` for its whole duration, and
`scaleUpModel`'s first loop iteration calls `findAvailablePort`, which
re-acquires the same non-reentrant mutex — so every in-cycle scale-up of
one or more workers blocks forever before a single `ContainerRuntime.start`
is attempted, for every runtime.  The claim's scenario, a failed start
during an in-cycle scale-up, can never arise: zero starts are issued.
(Were the nested lock removed, the loop's `continue` after a failed
start would still attempt the remaining workers rather than stop.) -/
theorem scaleUp_in_cycle_deadlocks (rt : ContainerRuntime) (model : String)
    (count : ℕ) (st : GlobalState) :
    scaleUpModelWithLock rt model true ((count : ℤ) + 1) st = none := by
  unfold scaleUpModelWithLock
  rw [show ((count : ℤ) + 1).toNat = count + 1 by omega]
  exact scaleUpLoopWithLock_succ rt model count st

/-- C9: the error path of `getSystemMetrics` returns the zero metrics,
but a successful probe whose output contains no comma (for example the
empty string) makes the code index `parts[1]` out of range — a runtime
panic, modelled as `none` — for every possible `ParseFloat` behaviour. -/
theorem getSystemMetrics_panics_on_comma_free_output :
    ∀ parseFloat : String → ℚ,
      getSystemMetrics parseFloat none
          = some { GPUUtilization := 0, VRAMUsed := 0, Requests := 0 } ∧
      getSystemMetrics parseFloat (some "") = none :=
  fun _ => ⟨rfl, rfl⟩

/-- C2 counterexample: interleaving two `route` calls for two fresh
models makes both port computations read `countActiveModels = 0`, so two
concurrently-live workers end up registered on the same port 11434. -/
theorem routing_port_collision_cex :
    (runSched rtAllOk [true, false, true, false] routeRaceXY).st.activeModels.load "x"
        = some "11434" ∧
    (runSched rtAllOk [true, false, true, false] routeRaceXY).st.activeModels.load "y"
        = some "11434" := by decide

/-- C2 amended: the scaling path's allocator `findAvailablePort` does
strictly increase — two successive calls hand out consecutive integer
ports; the routing path does not use this allocator. -/
theorem findAvailablePort_strictly_increases (st : GlobalState) :
    ∃ p1 p2 : ℤ,
      (findAvailablePort st).1 = toString p1 ∧
      (findAvailablePort (findAvailablePort st).2).1 = toString p2 ∧
      p1 < p2 :=
  ⟨st.nextPort, st.nextPort + 1, rfl, rfl, by omega⟩

/-- C3: `ensureModelRunning` takes no lock, so the interleaving in which
both calls pass the `activeModels.Load` check before either starts a
container issues two `ContainerRuntime.start` calls for model "x"; both
calls return successfully. -/
theorem concurrent_route_double_start :
    countStartCalls
        (runSched rtAllOk [true, false, true, false] routeRaceXX).st.events "x" = 2 ∧
    (runSched rtAllOk [true, false, true, false] routeRaceXX).pc1
        = RoutePC.done (some "11434") ∧
    (runSched rtAllOk [true, false, true, false] routeRaceXX).pc2
        = RoutePC.done (some "11434") := by decide

/-! ## Key uniqueness of the registry and its preservation -/

/-- Under distinct keys, `getModelPorts` returns at most one port. -/
theorem getModelPorts_len_le_one :
    ∀ (m : SyncMap), NodupKeys m → ∀ model, (getModelPorts m model).length ≤ 1 := by
  intro m
  induction m with
  | nil => intro _ model; simp [getModelPorts]
  | cons kv t ih =>
    intro h model
    have h' : kv.1 ∉ t.map (fun kv2 => kv2.1) ∧ (t.map (fun kv2 => kv2.1)).Nodup := by
      have hh := h
      unfold NodupKeys at hh
      rw [List.map_cons, List.nodup_cons] at hh
      exact hh
    unfold getModelPorts
    rw [List.filter_cons]
    by_cases hk : (kv.1 == model) = true
    · rw [if_pos hk]
      have hk' : kv.1 = model := by simpa using hk
      have hnil : t.filter (fun kv2 => kv2.1 == model) = [] := by
        rw [List.filter_eq_nil_iff]
        intro a ha
        simp only [beq_iff_eq]
        intro heq
        exact h'.1 (hk' ▸ heq ▸ List.mem_map.mpr ⟨a, ha, rfl⟩)
      rw [hnil]
      simp
    · rw [if_neg hk]
      exact ih h'.2 model

/-- Storing preserves key uniqueness. -/
theorem SyncMap.store_nodup (m : SyncMap) (k v : String) (h : NodupKeys m) :
    NodupKeys (m.store k v) := by
  unfold SyncMap.store
  by_cases hp : m.any (fun kv => kv.1 == k) = true
  · rw [if_pos hp]
    unfold NodupKeys at h ⊢
    have hkeys :
        (m.map (fun kv => if kv.1 == k then (k, v) else kv)).map (fun kv2 => kv2.1)
          = m.map (fun kv2 => kv2.1) := by
      rw [List.map_map]
      apply List.map_congr_left
      intro a ha
      simp only [Function.comp_apply]
      split
      · next hcond => exact ((by simpa using hcond : a.1 = k)).symm
      · rfl
    rw [hkeys]
    exact h
  · rw [if_neg hp]
    unfold NodupKeys at h ⊢
    rw [List.map_append, List.nodup_append]
    refine ⟨h, by simp, ?_⟩
    intro a ham hak
    simp only [List.map_cons, List.map_nil, List.mem_singleton] at hak
    subst hak
    obtain ⟨kv2, hmem, hfst⟩ := List.mem_map.mp ham
    exact hp (List.any_eq_true.mpr ⟨kv2, hmem, by simpa using hfst⟩)

/-- Deleting preserves key uniqueness. -/
theorem SyncMap.delete_nodup (m : SyncMap) (k : String) (h : NodupKeys m) :
    NodupKeys (m.delete k) := by
  unfold NodupKeys SyncMap.delete at *
  exact List.Nodup.sublist (List.Sublist.map _ (List.filter_sublist m)) h

/-- A container start preserves key uniqueness of the registry. -/
theorem startOllama_nodup (rt : ContainerRuntime) (model port : String)
    (st : GlobalState) (h : NodupKeys st.activeModels) :
    NodupKeys (startOllamaContainer rt model port st).2.activeModels := by
  by_cases hok : rt.startOk model port = true
  · simpa [startOllamaContainer, hok] using SyncMap.store_nodup st.activeModels model port h
  · simpa [startOllamaContainer, hok] using h

/-- A container stop preserves key uniqueness of the registry. -/
theorem stopOllama_nodup (rt : ContainerRuntime) (model port : String)
    (st : GlobalState) (h : NodupKeys st.activeModels) :
    NodupKeys (stopOllamaContainer rt model port st).2.activeModels :=
  SyncMap.delete_nodup st.activeModels model h

/-- The scale-up loop preserves key uniqueness. -/
theorem scaleUpLoop_nodup (rt : ContainerRuntime) (model : String) :
    ∀ (n : Nat) (st : GlobalState), NodupKeys st.activeModels →
      NodupKeys (scaleUpLoop rt model n st).activeModels := by
  intro n
  induction n with
  | zero => intro st h; exact h
  | succ k ih =>
    intro st h
    simp only [scaleUpLoop]
    split
    · exact ih _ (startOllama_nodup rt model _ _ h)
    · exact ih _ (startOllama_nodup rt model _ _ h)

/-- The scale-down loop preserves key uniqueness. -/
theorem scaleDownLoop_nodup (rt : ContainerRuntime) (model : String)
    (ports : List String) :
    ∀ (n : Nat) (st : GlobalState), NodupKeys st.activeModels →
      NodupKeys (scaleDownLoop rt model ports n st).activeModels := by
  intro n
  induction n with
  | zero => intro st h; exact h
  | succ k ih =>
    intro st h
    simp only [scaleDownLoop]
    split
    · split
      · exact ih _ (stopOllama_nodup rt model (ports.getLastD "") st h)
      · exact ih _ (stopOllama_nodup rt model (ports.getLastD "") st h)
    · exact h

/-- One per-model step of the scaling cycle preserves key uniqueness. -/
theorem scaleStep_nodup (rt : ContainerRuntime) (met : ScalingMetrics)
    (st : GlobalState) (model : String) (h : NodupKeys st.activeModels) :
    NodupKeys (scaleStep rt met st model).activeModels := by
  simp only [scaleStep]
  split_ifs with h1 h2
  · exact scaleUpLoop_nodup rt model _ _ h
  · exact scaleDownLoop_nodup rt model _ _ _ h
  · exact h

/-- A whole scaling cycle's fold preserves key uniqueness. -/
theorem foldl_scaleStep_nodup (rt : ContainerRuntime) (met : ScalingMetrics) :
    ∀ (L : List String) (st : GlobalState), NodupKeys st.activeModels →
      NodupKeys (L.foldl (scaleStep rt met) st).activeModels := by
  intro L
  induction L with
  | nil => intro st h; exact h
  | cons a t ih => intro st h; exact ih _ (scaleStep_nodup rt met st a h)

/-- The routing path preserves key uniqueness. -/
theorem ensure_nodup (rt : ContainerRuntime) (model : String)
    (st : GlobalState) (h : NodupKeys st.activeModels) :
    NodupKeys (ensureModelRunning rt model st).2.activeModels := by
  by_cases hex : ∃ p, st.activeModels.load model = some p
  · obtain ⟨p, hp⟩ := hex
    simpa [ensureModelRunning, hp] using h
  · have hn : st.activeModels.load model = none := by
      cases hl : st.activeModels.load model
      · rfl
      · exact absurd ⟨_, hl⟩ hex
    simp only [ensureModelRunning, hn]
    split
    · exact startOllama_nodup rt model _ _ h
    · exact startOllama_nodup rt model _ _ h

/-- Every reachable state has pairwise-distinct registry keys. -/
theorem reachable_nodupKeys : ∀ {st : GlobalState}, Reachable st →
    NodupKeys st.activeModels := by
  intro st h
  induction h with
  | init => exact List.nodup_nil
  | track model h ih => exact ih
  | route rt model h ih => exact ensure_nodup rt model _ ih
  | cycle rt met h ih => exact foldl_scaleStep_nodup rt met _ _ ih

/-- With at most one port in the slice, the scale-down loop's guard
`len(ports) > 1` never passes, so the loop leaves the state unchanged. -/
theorem scaleDownLoop_id (rt : ContainerRuntime) (model : String)
    (ports : List String) (h : ports.length ≤ 1) :
    ∀ (n : Nat) (st : GlobalState), scaleDownLoop rt model ports n st = st := by
  intro n st
  cases n with
  | zero => rfl
  | succ k =>
    simp only [scaleDownLoop]
    rw [if_neg (by omega)]

/-- Under distinct registry keys, `scaleDownModel` is the identity: the
registry holds at most one port per model, so the guard protects it. -/
theorem scaleDownModel_eq_self (rt : ContainerRuntime) (model : String)
    (count : ℤ) (st : GlobalState) (h : NodupKeys st.activeModels) :
    scaleDownModel rt model count st = st := by
  unfold scaleDownModel
  exact scaleDownLoop_id rt model _
    (getModelPorts_len_le_one st.activeModels h model) count.toNat st

/-- C1: a scale-down never reduces a model's worker count below 1 and
never removes the model's port registration, even when the desired count
is 0: the loop guard `len(ports) > 1` cannot pass because the registry
holds at most one port per model. -/
theorem scaleDown_never_drops_last_worker (rt : ContainerRuntime)
    (st : GlobalState) (model : String) (count : ℤ)
    (hnd : NodupKeys st.activeModels)
    (hw : 1 ≤ st.currentWorkers model) :
    1 ≤ (scaleDownModel rt model count st).currentWorkers model ∧
    (scaleDownModel rt model count st).activeModels.load model
      = st.activeModels.load model := by
  rw [scaleDownModel_eq_self rt model count st hnd]
  exact ⟨hw, rfl⟩

/-- C1 witness: one registered worker for "a", scale-down request for
one worker (desired 0): the worker count stays 1 and the registration
survives. -/
theorem scaleDown_never_drops_last_worker_witness :
    1 ≤ (scaleDownModel rtAllOk "a" 1 st1worker).currentWorkers "a" ∧
    (scaleDownModel rtAllOk "a" 1 st1worker).activeModels.load "a"
      = st1worker.activeModels.load "a" :=
  scaleDown_never_drops_last_worker rtAllOk st1worker "a" 1 (by decide) (by decide)

/-- C4: in every reachable state the registry addresses at most one
worker port per model. -/
theorem reachable_at_most_one_port {st : GlobalState} (h : Reachable st)
    (model : String) : (getModelPorts st.activeModels model).length ≤ 1 :=
  getModelPorts_len_le_one st.activeModels (reachable_nodupKeys h) model

/-- C4 witness: the initial state is reachable and has no port for
"llama". -/
theorem reachable_at_most_one_port_witness :
    (getModelPorts initialState.activeModels "llama").length ≤ 1 :=
  reachable_at_most_one_port Reachable.init "llama"

/-! ## Demand-counter bookkeeping of a scaling cycle -/

/-- A container start never touches the demand counters. -/
theorem startOllama_requestCounts (rt : ContainerRuntime) (model port : String)
    (st : GlobalState) :
    (startOllamaContainer rt model port st).2.requestCounts = st.requestCounts := by
  by_cases hok : rt.startOk model port = true <;> simp [startOllamaContainer, hok]

/-- A container stop never touches the demand counters. -/
theorem stopOllama_requestCounts (rt : ContainerRuntime) (model port : String)
    (st : GlobalState) :
    (stopOllamaContainer rt model port st).2.requestCounts = st.requestCounts := rfl

/-- The scale-up loop never touches the demand counters. -/
theorem scaleUpLoop_requestCounts (rt : ContainerRuntime) (model : String) :
    ∀ (n : Nat) (st : GlobalState),
      (scaleUpLoop rt model n st).requestCounts = st.requestCounts := by
  intro n
  induction n with
  | zero => intro st; rfl
  | succ k ih =>
    intro st
    simp only [scaleUpLoop]
    split
    · rw [ih]; exact startOllama_requestCounts rt model _ _
    · rw [ih]; exact startOllama_requestCounts rt model _ _

/-- The scale-down loop never touches the demand counters. -/
theorem scaleDownLoop_requestCounts (rt : ContainerRuntime) (model : String)
    (ports : List String) :
    ∀ (n : Nat) (st : GlobalState),
      (scaleDownLoop rt model ports n st).requestCounts = st.requestCounts := by
  intro n
  induction n with
  | zero => intro st; rfl
  | succ k ih =>
    intro st
    simp only [scaleDownLoop]
    split
    · split
      · rw [ih]; rfl
      · rw [ih]; rfl
    · rfl

/-- One per-model cycle step zeroes exactly that model's counter and
leaves every other counter unchanged. -/
theorem scaleStep_requestCounts (rt : ContainerRuntime) (met : ScalingMetrics)
    (st : GlobalState) (model x : String) :
    (scaleStep rt met st model).requestCounts x
      = if x = model then 0 else st.requestCounts x := by
  by_cases hx : x = model
  · simp only [scaleStep, hx, if_pos]
  · simp only [scaleStep, hx, if_neg, ite_false]
    split_ifs with h1 h2
    · exact congrFun (scaleUpLoop_requestCounts rt model _ _) x
    · exact congrFun (scaleDownLoop_requestCounts rt model _ _ _) x
    · rfl

/-- Events appended by the scale-down loop preserve earlier entries. -/
theorem scaleDownLoop_events_mono (rt : ContainerRuntime) (model : String)
    (ports : List String) :
    ∀ (n : Nat) (st : GlobalState) (e : Event),
      e ∈ st.events → e ∈ (scaleDownLoop rt model ports n st).events := by
  intro n
  induction n with
  | zero => intro st e he; exact he
  | succ k ih =>
    intro st e he
    simp only [scaleDownLoop]
    split
    · split
      · exact ih _ e (List.mem_append_left _ he)
      · exact ih _ e (List.mem_append_left _ he)
    · exact he

/-- Events appended by the scale-up loop preserve earlier entries. -/
theorem scaleUpLoop_events_mono (rt : ContainerRuntime) (model : String) :
    ∀ (n : Nat) (st : GlobalState) (e : Event),
      e ∈ st.events → e ∈ (scaleUpLoop rt model n st).events := by
  intro n
  induction n with
  | zero => intro st e he; exact he
  | succ k ih =>
    intro st e he
    simp only [scaleUpLoop]
    split
    · apply ih
      show e ∈ (startOllamaContainer rt model
        (findAvailablePort st).1 (findAvailablePort st).2).2.events
      rw [startOllama_events]
      exact List.mem_append_left _ he
    · apply ih
      show e ∈ (startOllamaContainer rt model
        (findAvailablePort st).1 (findAvailablePort st).2).2.events
      rw [startOllama_events]
      exact List.mem_append_left _ he

/-- A cycle step's event log contains the previous log plus the step's
own `decision` record. -/
theorem scaleStep_events_super (rt : ContainerRuntime) (met : ScalingMetrics)
    (st : GlobalState) (model : String) (e : Event)
    (he : e ∈ st.events ++ [Event.decision model (st.requestCounts model)]) :
    e ∈ (scaleStep rt met st model).events := by
  simp only [scaleStep]
  split_ifs with h1 h2
  · exact scaleUpLoop_events_mono rt model _ _ e he
  · exact scaleDownLoop_events_mono rt model _ _ _ e he
  · exact he

/-- Folding cycle steps preserves earlier event-log entries. -/
theorem foldl_scaleStep_events_mono (rt : ContainerRuntime)
    (met : ScalingMetrics) :
    ∀ (L : List String) (st : GlobalState) (e : Event),
      e ∈ st.events → e ∈ (L.foldl (scaleStep rt met) st).events := by
  intro L
  induction L with
  | nil => intro st e he; exact he
  | cons a t ih =>
    intro st e he
    exact ih _ e (scaleStep_events_super rt met st a e (List.mem_append_left _ he))

/-- Drain semantics of the per-cycle fold over a duplicate-free model
list: every listed model's counter is read at its pre-cycle value
(witnessed by the `decision` event) and reset to zero; unlisted models'
counters are untouched. -/
theorem foldl_scaleStep_drain (rt : ContainerRuntime) (met : ScalingMetrics) :
    ∀ (L : List String) (st : GlobalState), L.Nodup → ∀ m : String,
      (m ∈ L → (L.foldl (scaleStep rt met) st).requestCounts m = 0 ∧
        Event.decision m (st.requestCounts m)
          ∈ (L.foldl (scaleStep rt met) st).events) ∧
      (m ∉ L → (L.foldl (scaleStep rt met) st).requestCounts m
          = st.requestCounts m) := by
  intro L
  induction L with
  | nil =>
    intro st _ m
    exact ⟨fun h => absurd h (List.not_mem_nil m), fun _ => rfl⟩
  | cons a t ih =>
    intro st hN m
    have hN' : t.Nodup := (List.nodup_cons.mp hN).2
    have haT : a ∉ t := (List.nodup_cons.mp hN).1
    constructor
    · intro hm
      rcases List.mem_cons.mp hm with heq | hmt
      · subst heq
        constructor
        · have hpres := (ih (scaleStep rt met st m) hN' m).2 haT
          rw [List.foldl_cons, hpres, scaleStep_requestCounts]
          simp
        · rw [List.foldl_cons]
          apply foldl_scaleStep_events_mono
          exact scaleStep_events_super rt met st m _ (by simp)
      · have hma : m ≠ a := fun hEq => haT (hEq ▸ hmt)
        have key := (ih (scaleStep rt met st a) hN' m).1 hmt
        rw [List.foldl_cons]
        refine ⟨key.1, ?_⟩
        have hsame : (scaleStep rt met st a).requestCounts m = st.requestCounts m := by
          rw [scaleStep_requestCounts]
          simp [hma]
        rw [← hsame]
        exact key.2
    · intro hm
      have hma : m ≠ a := fun hEq => hm (hEq ▸ List.mem_cons_self a t)
      have hmt : m ∉ t := fun hEq => hm (List.mem_cons_of_mem a hEq)
      have hpres := (ih (scaleStep rt met st a) hN' m).2 hmt
      rw [List.foldl_cons, hpres, scaleStep_requestCounts]
      simp [hma]

/-- A scale-up requested from inside a cycle (lock held) for a positive
worker count blocks forever. -/
theorem scaleUpModelWithLock_pos_none (rt : ContainerRuntime) (model : String)
    (count : ℤ) (st : GlobalState) (h : 0 < count) :
    scaleUpModelWithLock rt model true count st = none := by
  unfold scaleUpModelWithLock
  rw [show count.toNat = (count.toNat - 1) + 1 by omega]
  exact scaleUpLoopWithLock_succ rt model (count.toNat - 1) st

/-- One lock-aware cycle step either deadlocks (when its model needs a
scale-up) or computes exactly the lock-erased step. -/
theorem scaleStepWithLock_eq (rt : ContainerRuntime) (met : ScalingMetrics)
    (st : GlobalState) (model : String) :
    scaleStepWithLock rt met (some st) model
      = if calculateDesiredWorkers model (st.requestCounts model) met
            > st.currentWorkers model
        then none
        else some (scaleStep rt met st model) := by
  simp only [scaleStepWithLock, scaleStep]
  split_ifs with h1 h2
  · rw [scaleUpModelWithLock_pos_none]
    omega
  · rfl
  · rfl

/-- A cycle that has already blocked stays blocked. -/
theorem foldl_scaleStepWithLock_none (rt : ContainerRuntime)
    (met : ScalingMetrics) :
    ∀ (L : List String), L.foldl (scaleStepWithLock rt met) none = none := by
  intro L
  induction L with
  | nil => rfl
  | cons a t ih =>
    rw [List.foldl_cons, show scaleStepWithLock rt met none a = none from rfl]
    exact ih

/-- A lock-aware cycle that completes computes exactly the lock-erased
cycle's state. -/
theorem foldl_scaleStepWithLock_some (rt : ContainerRuntime)
    (met : ScalingMetrics) :
    ∀ (L : List String) (st stf : GlobalState),
      L.foldl (scaleStepWithLock rt met) (some st) = some stf →
      stf = L.foldl (scaleStep rt met) st := by
  intro L
  induction L with
  | nil =>
    intro st stf h
    simpa using h.symm
  | cons a t ih =>
    intro st stf h
    rw [List.foldl_cons, scaleStepWithLock_eq] at h
    by_cases h1 : calculateDesiredWorkers a (st.requestCounts a) met
        > st.currentWorkers a
    · rw [if_pos h1, foldl_scaleStepWithLock_none] at h
      exact absurd h (by simp)
    · rw [if_neg h1] at h
      rw [List.foldl_cons]
      exact ih _ _ h

/-- C10 counterexample: a request recorded for a model with no
registered worker is never drained: the scaling cycle (which completes
here — the active set is empty, so no scale-up is reached) returns the
state unchanged, leaving that counter at 1 instead of resetting every
counter to zero. -/
theorem drain_skips_inactive_counter_cex :
    (TrackRequest "m" initialState).requestCounts "m" = 1 ∧
    scaleModelsBasedOnDemandWithLock rtAllOk ⟨0, 0, 0⟩ (TrackRequest "m" initialState)
      = some (TrackRequest "m" initialState) := by
  constructor
  · decide
  · rfl

/-- On `stDemand` (one worker for "a", zero metrics so desired = 0) the
cycle takes only the scale-down branch and completes. -/
theorem stDemand_cycle_completes :
    ∃ stf, scaleModelsBasedOnDemandWithLock rtAllOk ⟨0, 0, 0⟩ stDemand = some stf := by
  have h3 : stDemand.requestCounts "a" = 3 := by decide
  have hM : maxByVRAM ⟨0, 0, 0⟩ = 0 := by
    unfold maxByVRAM
    rw [show (ScalingMetrics.mk 0 0 0).VRAMUsed * (9 / 10) / 4000 = (0 : ℚ)
      from by norm_num]
    decide
  have hdes : calculateDesiredWorkers "a" (stDemand.requestCounts "a") ⟨0, 0, 0⟩
      = 0 := by
    rw [h3]
    simp only [calculateDesiredWorkers, hM]
    norm_num
  refine ⟨scaleStep rtAllOk ⟨0, 0, 0⟩ stDemand "a", ?_⟩
  show (getActiveModels stDemand.activeModels).foldl
      (scaleStepWithLock rtAllOk ⟨0, 0, 0⟩) (some stDemand)
    = some (scaleStep rtAllOk ⟨0, 0, 0⟩ stDemand "a")
  rw [show getActiveModels stDemand.activeModels = ["a"] from rfl,
      List.foldl_cons, scaleStepWithLock_eq,
      if_neg (by rw [hdes]; decide), List.foldl_nil]

/-- C10 amended: a scaling cycle that completes — one in which no model
triggers the scale-up branch; a cycle that does self-deadlocks inside
`scaleUpModel` on the non-reentrant `scalingLock` and never returns —
reads and resets exactly the counters of the models in the active set
at cycle start: each such model's counter is read at its pre-cycle
value (the number of `TrackRequest` calls since that counter was last
reset) and set to zero, while counters of models outside the active set
are neither read nor reset; and a `TrackRequest` that acquires the lock
adds exactly 1 to its model's counter. -/
theorem drain_resets_active_counters (rt : ContainerRuntime)
    (met : ScalingMetrics) (st : GlobalState)
    (hnd : NodupKeys st.activeModels) (m : String) :
    (∀ stf : GlobalState,
      scaleModelsBasedOnDemandWithLock rt met st = some stf →
        (m ∈ getActiveModels st.activeModels →
            stf.requestCounts m = 0 ∧
            Event.decision m (st.requestCounts m) ∈ stf.events) ∧
        (m ∉ getActiveModels st.activeModels →
            stf.requestCounts m = st.requestCounts m)) ∧
    (TrackRequest m st).requestCounts m = st.requestCounts m + 1 := by
  constructor
  · intro stf hstf
    have heq : stf = (getActiveModels st.activeModels).foldl (scaleStep rt met) st :=
      foldl_scaleStepWithLock_some rt met (getActiveModels st.activeModels) st stf hstf
    rw [heq]
    exact foldl_scaleStep_drain rt met (getActiveModels st.activeModels) st hnd m
  · simp [TrackRequest]

/-- C10 amended witness: model "a" is active with 3 pending requests and
zero metrics; the cycle completes, its drain is described by the
theorem, and the completed state indeed has the counter reset to 0. -/
theorem drain_resets_active_counters_witness :
    ((∀ stf : GlobalState,
        scaleModelsBasedOnDemandWithLock rtAllOk ⟨0, 0, 0⟩ stDemand = some stf →
          ("a" ∈ getActiveModels stDemand.activeModels →
              stf.requestCounts "a" = 0 ∧
              Event.decision "a" (stDemand.requestCounts "a") ∈ stf.events) ∧
          ("a" ∉ getActiveModels stDemand.activeModels →
              stf.requestCounts "a" = stDemand.requestCounts "a")) ∧
      (TrackRequest "a" stDemand).requestCounts "a"
        = stDemand.requestCounts "a" + 1) ∧
    ∃ stf, scaleModelsBasedOnDemandWithLock rtAllOk ⟨0, 0, 0⟩ stDemand = some stf ∧
      stf.requestCounts "a" = 0 := by
  have T := drain_resets_active_counters rtAllOk ⟨0, 0, 0⟩ stDemand (by decide) "a"
  refine ⟨T, ?_⟩
  obtain ⟨stf, hstf⟩ := stDemand_cycle_completes
  exact ⟨stf, hstf, ((T.1 stf hstf).1 (by decide)).1⟩
